import Mathlib

/-!
Verification development for the SantAI gift-agent repository.

The definitions below are a shallow embedding of the Python sources:

* `global_parameters.py` (the slot store `GlobalParameters`),
* `llm_service.py` (extraction, validation, category generation, ranking),
* `conversation_flow.py` (the conversation state machine handlers),
* `shopping_agent_interface.py` (`_parse_budget_range`),
* `global_memory.py` (`add_gifts_to_user`),
* `agent.py` (the inbound peer-reply classification) together with the
  peer-response cache used by it.

External collaborators (the text-completion service, the product-search
API) are modelled as explicit behaviour parameters: a function that in
Python calls the service takes here an inductive value describing the
observable outcome of that call (parsed payload, or failure).  Python
`None`-able fields become `Option`, Python strings become `String`
(operated on through their character lists, mirroring `str.lower`,
`in`, `split`, `strip`, `isdigit`, `int`), and Python dict-based state
becomes explicit records passed in and out.
-/

/-- Character-list test: `sub` occurs at the head of `l` (Python string
slicing / regex anchoring helper). -/
def leadsWith : List Char → List Char → Bool
  | [], _ => true
  | _ :: _, [] => false
  | a :: as, b :: bs => a == b && leadsWith as bs

/-- Character-list test: `sub` occurs contiguously anywhere inside `l`.
This is Python `sub in l` on strings. -/
def containsSeq (sub : List Char) : List Char → Bool
  | [] => sub.isEmpty
  | c :: rest => leadsWith sub (c :: rest) || containsSeq sub rest

/-- Python `str.lower` viewed as a character list. -/
def lowerData (s : String) : List Char := s.data.map Char.toLower

/-- Numeric value of a decimal digit character. -/
def digitVal (c : Char) : Nat := c.toNat - 48

/-- Decimal value of a run of digit characters (Python `int` on a digit
string). -/
def listToNat (l : List Char) : Nat := l.foldl (fun a c => a * 10 + digitVal c) 0

/-- Python `str.isdigit` (restricted to ASCII digits, the only ones the
program ever feeds it). -/
def pyIsDigit (s : String) : Bool := !s.data.isEmpty && s.data.all Char.isDigit

/-- Python `int` applied to a digit-only string. -/
def strToNat (s : String) : Nat := listToNat s.data

/-- The ten decimal digit characters. -/
def digitChars : List Char := ['0', '1', '2', '3', '4', '5', '6', '7', '8', '9']

/-- Accumulator pass for `digitRuns`. -/
def digitRunsAux : List Char → Option Nat → List Nat
  | [], none => []
  | [], some acc => [acc]
  | c :: t, none =>
    if c.isDigit then digitRunsAux t (some (digitVal c)) else digitRunsAux t none
  | c :: t, some acc =>
    if c.isDigit then digitRunsAux t (some (acc * 10 + digitVal c))
    else acc :: digitRunsAux t none

/-- Values of the maximal digit runs of a string, left to right: Python
`re.findall` with a digits pattern, each group read by `int`. -/
def digitRuns (l : List Char) : List Nat := digitRunsAux l none

/-- Python `str.split` on a single-character separator. -/
def splitOnChar (c : Char) : List Char → List (List Char)
  | [] => [[]]
  | x :: t =>
    if x == c then [] :: splitOnChar c t
    else
      match splitOnChar c t with
      | h :: r => (x :: h) :: r
      | [] => [[x]]

/-- Python whitespace test used by `str.strip` and the `\s` regex class. -/
def isPySpace (c : Char) : Bool := c == ' ' || c == '\t' || c == '\n' || c == '\r'

/-- Python `str.strip`. -/
def pyStrip (l : List Char) : List Char :=
  ((l.dropWhile isPySpace).reverse.dropWhile isPySpace).reverse

/-- Python `int(s)`: strips whitespace, then requires a nonempty digit
string (the sign forms never reach the call sites embedded here), else
raises `ValueError`, modelled as `none`. -/
def pyInt (l : List Char) : Option Int :=
  let t := pyStrip l
  if !t.isEmpty && t.all Char.isDigit then some ((listToNat t : Int)) else none

/-- Slot store of `Gift-expert/global_parameters.py` (`GlobalParameters`
dataclass): the five conversation slots, each `None`-able. -/
structure GlobalParameters where
  occasion : Option String
  recipient : Option String
  preferences : Option String
  budget_min : Option Int
  budget_max : Option Int
  deriving DecidableEq

/-- Python truthiness of an optional string (`not self.occasion`): `None`
and the empty string are falsy. -/
def optStrFalsy : Option String → Bool
  | none => true
  | some s => s == ""

/-- Python truthiness of an optional int (`not self.budget_min`): `None`
and `0` are falsy. -/
def optIntFalsy : Option Int → Bool
  | none => true
  | some n => n == 0

/-- `GlobalParameters.get_missing_info` (`global_parameters.py` lines
26-38): names of the slots that are falsy, budget counted once via both
bound names. -/
def GlobalParameters.get_missing_info (gp : GlobalParameters) : List String :=
  (if optStrFalsy gp.occasion then ["occasion"] else []) ++
  (if optStrFalsy gp.recipient then ["recipient"] else []) ++
  (if optStrFalsy gp.preferences then ["preferences"] else []) ++
  (if optIntFalsy gp.budget_min && optIntFalsy gp.budget_max then
    ["budget_min", "budget_max"]
  else [])

/-- `GlobalParameters.is_complete` (`global_parameters.py` lines 40-45):
all three text slots are non-`None` and at least one budget bound is
non-`None`. -/
def GlobalParameters.is_complete (gp : GlobalParameters) : Bool :=
  gp.occasion.isSome && gp.recipient.isSome && gp.preferences.isSome &&
    (gp.budget_min.isSome || gp.budget_max.isSome)

/-- The freshly reset slot store (`GlobalParameters()` / `reset`). -/
def gpEmpty : GlobalParameters := ⟨none, none, none, none, none⟩

/-- The five-field record parsed out of the completion service output by
`get_occasion_and_preferences` (the `missing_info` key it may also carry
is never read by the validation step). -/
structure ExtractedParams where
  occasion : Option String
  recipient : Option String
  preferences : Option String
  budget_min : Option Int
  budget_max : Option Int
  deriving DecidableEq

/-- Result record returned by `get_occasion_and_preferences`: the five
slots plus the `missing_info` list. -/
structure ExtractResult where
  occasion : Option String
  recipient : Option String
  preferences : Option String
  budget_min : Option Int
  budget_max : Option Int
  missing_info : List String
  deriving DecidableEq

/-- Violation filter of `_validate_and_update_parameters`
(`Gift-expert/llm_service.py` lines 275-282) for one field: a non-`None`
extracted value that differs from a non-`None` current value is
discarded; otherwise it is kept in `valid_params`. -/
def validParam {α : Type} [DecidableEq α] (cur v : Option α) : Option α :=
  match v with
  | none => none
  | some x => if cur ≠ none ∧ cur ≠ some x then none else some x

/-- Guarded slot write of `_validate_and_update_parameters` (lines
291-314) for one field: the store field is written only when the valid
extracted value is non-`None` and the store field is currently `None`. -/
def applyUpdate {α : Type} (gpf vp : Option α) : Option α :=
  match vp, gpf with
  | none, _ => gpf
  | some x, none => some x
  | some _, some y => some y

/-- `LLMService._validate_and_update_parameters`
(`Gift-expert/llm_service.py` lines 263-316) acting on the slot store:
each of the five fields passes through the violation filter against the
`current_params` snapshot (equal to the store itself at call time) and
is then written only if currently `None`. -/
def validateAndUpdateParameters (e : ExtractedParams) (gp : GlobalParameters) :
    GlobalParameters where
  occasion := applyUpdate gp.occasion (validParam gp.occasion e.occasion)
  recipient := applyUpdate gp.recipient (validParam gp.recipient e.recipient)
  preferences := applyUpdate gp.preferences (validParam gp.preferences e.preferences)
  budget_min := applyUpdate gp.budget_min (validParam gp.budget_min e.budget_min)
  budget_max := applyUpdate gp.budget_max (validParam gp.budget_max e.budget_max)

/-- Observable behaviour of one completion-service call made by
`Gift-expert` `LLMService.get_occasion_and_preferences`:
the API call raises; or its text parses as JSON on the first attempt; or
only the single-quote-repaired text parses; or no parse succeeds. -/
inductive GroqExtractionBehaviour where
  | raiseApiError
  | parsedJson (e : ExtractedParams)
  | quoteFixedJson (r : ExtractResult)
  | unparseable
  deriving DecidableEq

/-- `LLMService.get_occasion_and_preferences`
(`Gift-expert/llm_service.py` lines 34-166).  On the first-parse path it
validates and merges into the store and reports the store values plus
`get_missing_info`.  On the quote-repaired path (line 158) it returns the
parsed record directly, without touching the store.  On an API error
(line 166) and on a double parse failure (line 161) the code calls
`self._fallback_extraction(user_input, current_context)` where the name
`current_context` is not defined anywhere in the function, so a Python
`NameError` escapes; both paths are therefore `Except.error`. -/
def get_occasion_and_preferences (gp : GlobalParameters)
    (b : GroqExtractionBehaviour) : Except String (ExtractResult × GlobalParameters) :=
  match b with
  | .parsedJson e =>
    let gp2 := validateAndUpdateParameters e gp
    .ok (⟨gp2.occasion, gp2.recipient, gp2.preferences, gp2.budget_min,
      gp2.budget_max, gp2.get_missing_info⟩, gp2)
  | .quoteFixedJson r => .ok (r, gp)
  | .raiseApiError => .error "NameError: name current_context is not defined"
  | .unparseable => .error "NameError: name current_context is not defined"

/-- Effect of one `get_occasion_and_preferences` call on the slot store
alone: only the first-parse path runs `_validate_and_update_parameters`;
the quote-repaired path returns early and the two raising paths escape
before any store write. -/
def extractStoreStep (gp : GlobalParameters) (b : GroqExtractionBehaviour) :
    GlobalParameters :=
  match b with
  | .parsedJson e => validateAndUpdateParameters e gp
  | _ => gp

/-- Names of the five slots of the store. -/
inductive Slot where
  | occasion
  | recipient
  | preferences
  | budgetMin
  | budgetMax
  deriving DecidableEq

/-- Uniform view of one slot of the store (string slots on the left,
budget slots on the right). -/
def slotVal (gp : GlobalParameters) : Slot → Option (String ⊕ Int)
  | .occasion => gp.occasion.map Sum.inl
  | .recipient => gp.recipient.map Sum.inl
  | .preferences => gp.preferences.map Sum.inl
  | .budgetMin => gp.budget_min.map Sum.inr
  | .budgetMax => gp.budget_max.map Sum.inr

/-- Conversation states (`models.py` `ConversationState`). -/
inductive ConversationState where
  | INITIAL
  | COLLECTING_PREFERENCES
  | SELECTING_CATEGORY
  | SHOWING_RECOMMENDATIONS
  | SELECTING_GIFT
  | PAYMENT
  | COMPLETED
  deriving DecidableEq

/-- The preferences object carried by a `ConversationContext` in the
`Gift-expert` flow.  The dataclass in `src/models.py` declares `occasion`,
`preferences`, `budget`, `category`; `Gift-expert/conversation_flow.py`
additionally assigns `recipient`, `budget_min` and `budget_max` as plain
attributes (Python dataclasses accept new attributes), so the record
here carries all seven fields. -/
structure UserPreferences where
  occasion : Option String
  recipient : Option String
  preferences : Option String
  budget_min : Option Int
  budget_max : Option Int
  budget : Option String
  category : Option String
  deriving DecidableEq

/-- `UserPreferences.is_complete` (`src/models.py` lines 29-36): only
`occasion` and the `budget` string are required (`is not None`). -/
def UserPreferences.is_complete (p : UserPreferences) : Bool :=
  p.occasion.isSome && p.budget.isSome

/-- The slot-store view of a context preferences record: the five fields
that mirror `GlobalParameters` (the flow copies the extraction result,
which equals the store, into them on every turn). -/
def gpView (p : UserPreferences) : GlobalParameters :=
  ⟨p.occasion, p.recipient, p.preferences, p.budget_min, p.budget_max⟩

/-- State transition of `_handle_initial_input`
(`Gift-expert/conversation_flow.py` lines 117-155): the next state is
`SELECTING_CATEGORY` exactly when the `missing_info` list of the
extraction result is empty, else `COLLECTING_PREFERENCES`. -/
def handleInitialNext (missing : List String) : ConversationState :=
  if missing.isEmpty then .SELECTING_CATEGORY else .COLLECTING_PREFERENCES

/-- State transition of `_handle_preferences_collection`
(`Gift-expert/conversation_flow.py` lines 190-201): the next state is
`SELECTING_CATEGORY` exactly when `context.preferences.is_complete()`
holds, else the state stays `COLLECTING_PREFERENCES`. -/
def handleCollectingNext (p : UserPreferences) : ConversationState :=
  if p.is_complete then .SELECTING_CATEGORY else .COLLECTING_PREFERENCES

/-- The slot set fixed by the completeness-gating claim:
occasion "birthday", budget_min 50, budget_max 100, recipient and
preferences unset (and the `budget` string never written by this flow). -/
def pGate : UserPreferences := ⟨some "birthday", none, none, some 50, some 100, none, none⟩

/-- A slot set on which the two completeness gates disagree: all four
extraction slots are filled, while the `budget` string (which the
`Gift-expert` flow never writes) is not. -/
def pAllFour : UserPreferences :=
  ⟨some "birthday", some "sister", some "hiking", some 50, some 100, none, none⟩

/-- `ShoppingAgentInterface._parse_budget_range`
(`Gift-expert/shopping_agent_interface.py` lines 232-285): lower-case,
drop dollar signs and commas, then branch on `under`/`below`, `+`, `-`,
single number; the range branch rejects `min > max` by returning `None`,
and any `int` failure is swallowed into `None` by the enclosing
`try`/`except`. -/
def parse_budget_range (budget : List Char) : Option (Int × Option Int) :=
  let b := ((budget.map Char.toLower).filter (fun c => c != '$')).filter
    (fun c => c != ',')
  if containsSeq "under".data b || containsSeq "below".data b then
    match digitRuns b with
    | n :: _ => some ((0 : Int), some ((n : Int)))
    | [] => none
  else if b.contains '+' then
    match digitRuns b with
    | n :: _ => some (((n : Int)), none)
    | [] => none
  else if b.contains '-' then
    match splitOnChar '-' b with
    | [p1, p2] =>
      match pyInt (pyStrip p1), pyInt (pyStrip p2) with
      | some mn, some mx => if mn ≤ mx then some (mn, some mx) else none
      | _, _ => none
    | _ => none
  else
    match digitRuns b with
    | n :: _ => some (((n : Int)), some ((n : Int)))
    | [] => none

/-- Match of the fallback budget regex (digits, optional spaces, a dash,
optional spaces, digits) anchored at the head of the list. -/
def matchBudgetAt (l : List Char) : Option (Nat × Nat) :=
  let d1 := l.takeWhile Char.isDigit
  if d1.isEmpty then none
  else
    let r1 := (l.dropWhile Char.isDigit).dropWhile isPySpace
    match r1 with
    | '-' :: r2 =>
      let d2 := (r2.dropWhile isPySpace).takeWhile Char.isDigit
      if d2.isEmpty then none else some (listToNat d1, listToNat d2)
    | _ => none

/-- Python `re.search` for the fallback budget range pattern
(`Gift-expert/llm_service.py` line 237): the leftmost match wins. -/
def findBudgetPair : List Char → Option (Nat × Nat)
  | [] => none
  | c :: rest =>
    match matchBudgetAt (c :: rest) with
    | some p => some p
    | none => findBudgetPair rest

/-- Match of the `under`-then-digits pattern anchored at the head. -/
def underAt (l : List Char) : Option Nat :=
  if leadsWith "under".data l then
    let r := l.drop 5
    let sp := r.takeWhile isPySpace
    let d := (r.dropWhile isPySpace).takeWhile Char.isDigit
    if !sp.isEmpty && !d.isEmpty then some (listToNat d) else none
  else none

/-- Python `re.search` for the `under N` pattern (line 242). -/
def findUnderNum : List Char → Option Nat
  | [] => none
  | c :: rest =>
    match underAt (c :: rest) with
    | some n => some n
    | none => findUnderNum rest

/-- Python `re.search` for the dollar-amount pattern (line 246). -/
def findDollarNum : List Char → Option Nat
  | [] => none
  | c :: rest =>
    if c == '$' then
      let d := rest.takeWhile Char.isDigit
      if d.isEmpty then findDollarNum rest else some (listToNat d)
    else findDollarNum rest

/-- Budget portion of `LLMService._fallback_extraction`
(`Gift-expert/llm_service.py` lines 236-248), given the budget fields
carried over from the current context: a digits-dash-digits match writes
both bounds verbatim; else an `under N` phrase writes only the maximum;
else a dollar amount writes only the minimum. -/
def fallbackBudgetFields (input : List Char) (cmin cmax : Option Int) :
    Option Int × Option Int :=
  match findBudgetPair input with
  | some (a, b) => (some ((a : Int)), some ((b : Int)))
  | none =>
    if containsSeq "under".data (input.map Char.toLower) then
      match findUnderNum input with
      | some n => (cmin, some ((n : Int)))
      | none => (cmin, cmax)
    else if input.contains '$' then
      match findDollarNum input with
      | some n => (some ((n : Int)), cmax)
      | none => (cmin, cmax)
    else (cmin, cmax)

/-- Product record (`models.py` `GiftItem`, fields relevant here). -/
structure GiftItem where
  id : String
  name : String
  price : String
  description : String
  source : String
  deriving DecidableEq

/-- One entry of the ranked-gifts JSON array the completion service is
asked to produce by `generate_gift_recommendations`. -/
structure RecJson where
  id : String
  name : String
  price : String
  description : String
  reason : String
  deriving DecidableEq

/-- Observable behaviour of the ranking completion call: the response
parses as a JSON array, or the call/parse fails (one `except` branch
covers both). -/
inductive RankBehaviour where
  | parsedList (recs : List RecJson)
  | failure
  deriving DecidableEq

/-- Element of the heterogeneous Python list returned by
`generate_gift_recommendations`: parsed service entries on success, the
input gift dicts themselves on fallback. -/
inductive RankedItem where
  | fromService (r : RecJson)
  | fromInput (g : GiftItem)
  deriving DecidableEq

/-- `LLMService.generate_gift_recommendations` (`src/llm_service.py`
lines 213-255 and `Gift-expert/llm_service.py` lines 420-462, which are
identical in structure): empty input short-circuits to `[]`; a parsed
service response is returned untouched; any failure falls back to the
first five gifts in input order. -/
def generate_gift_recommendations (gifts : List GiftItem) (b : RankBehaviour) :
    List RankedItem :=
  if gifts.isEmpty then []
  else
    match b with
    | .parsedList recs => recs.map RankedItem.fromService
    | .failure => (gifts.take 5).map RankedItem.fromInput

/-- Intent-resolution record returned by `process_user_selection`
(`Gift-expert/llm_service.py` lines 494-571). -/
structure SelectionResult where
  selected_option : Option String
  wants_more_options : Bool
  updated_preferences : Bool
  action : String
  deriving DecidableEq

/-- A pure numeric selection as resolved by intent resolution. -/
def selectNumeric (s : String) : SelectionResult := ⟨some s, false, false, "select"⟩

/-- Synonym table of `_find_close_category_match`
(`Gift-expert/conversation_flow.py` lines 609-633), in source order. -/
def synonymTable : List (String × String) :=
  [("tech", "Electronics"), ("electronic", "Electronics"), ("gadget", "Electronics"),
   ("book", "Books"), ("reading", "Books"),
   ("jewel", "Jewelry"), ("jewellery", "Jewelry"), ("ring", "Jewelry"),
   ("necklace", "Jewelry"),
   ("home", "Home Decor"), ("decor", "Home Decor"), ("decoration", "Home Decor"),
   ("sport", "Sports Equipment"), ("fitness", "Sports Equipment"),
   ("exercise", "Sports Equipment"),
   ("fashion", "Fashion Accessories"), ("clothes", "Fashion Accessories"),
   ("clothing", "Fashion Accessories"),
   ("kitchen", "Kitchen Gadgets"), ("cooking", "Kitchen Gadgets"),
   ("art", "Art & Crafts"), ("craft", "Art & Crafts"), ("creative", "Art & Crafts")]

/-- `ConversationFlowManager._find_close_category_match`
(`Gift-expert/conversation_flow.py` lines 591-639): first category with a
substring match in either direction against the lower-cased input, else
the first synonym contained in the input whose target category is
offered. -/
def findCloseCategoryMatch (sel : String) (cats : List String) : Option String :=
  let low := lowerData sel
  match cats.find? (fun c => containsSeq low (lowerData c) || containsSeq (lowerData c) low) with
  | some c => some c
  | none =>
    synonymTable.findSome? fun kv =>
      if containsSeq kv.1.data low && cats.contains kv.2 then some kv.2 else none

/-- Outcome of one `_handle_category_selection` turn. -/
inductive CatOutcome where
  | searched (category : String)
  | invalidNumberPrompt
  | noMatchPrompt
  | moreOptions
  | updatePrefs
  | unclearPrompt
  deriving DecidableEq

/-- `ConversationFlowManager._handle_category_selection`
(`Gift-expert/conversation_flow.py` lines 203-262) reduced to its
decision: `randPick` stands for `random.choice`; a digit-only selection
indexes `available_categories` one-based with an out-of-range re-prompt;
otherwise the close-match table is tried.  Only the update-preferences
branch changes the conversation state. -/
def handleCategorySelection (cats : List String) (randPick : List String → String)
    (sel : SelectionResult) : CatOutcome × ConversationState :=
  if sel.action == "select" && sel.selected_option.isSome then
    match sel.selected_option with
    | some selected =>
      if selected == "surprise me" then
        (.searched (randPick cats), .SELECTING_CATEGORY)
      else if cats.contains selected then
        (.searched selected, .SELECTING_CATEGORY)
      else if pyIsDigit selected then
        let index : Int := ((strToNat selected : Int)) - 1
        if 0 ≤ index ∧ index < (cats.length : Int) then
          (.searched (cats.getD index.toNat ""), .SELECTING_CATEGORY)
        else (.invalidNumberPrompt, .SELECTING_CATEGORY)
      else
        match findCloseCategoryMatch selected cats with
        | some c => (.searched c, .SELECTING_CATEGORY)
        | none => (.noMatchPrompt, .SELECTING_CATEGORY)
    | none => (.unclearPrompt, .SELECTING_CATEGORY)
  else if sel.wants_more_options then (.moreOptions, .SELECTING_CATEGORY)
  else if sel.updated_preferences then (.updatePrefs, .COLLECTING_PREFERENCES)
  else (.unclearPrompt, .SELECTING_CATEGORY)

/-- Outcome of one `_handle_recommendation_selection` turn. -/
inductive RecOutcome where
  | selectedGift (name : String)
  | reprompt
  | moreRecs
  | updatePrefs
  deriving DecidableEq

/-- `ConversationFlowManager._handle_recommendation_selection`
(`Gift-expert/conversation_flow.py` lines 264-298) reduced to its
decision over the displayed recommendation names: the selection text is
accepted when its FIRST character is one of `1`-`5`
(`selection_text.startswith((…))` then `int(selection_text[0])`), the
rest of the text being ignored; an accepted in-range pick moves to
`PAYMENT`, everything else re-prompts in the current state. -/
def handleRecommendationSelection (recNames : List String) (sel : SelectionResult)
    (st : ConversationState) : RecOutcome × ConversationState :=
  if sel.action == "select" && sel.selected_option.isSome then
    match sel.selected_option with
    | some text =>
      match text.data with
      | c :: _ =>
        if c == '1' || c == '2' || c == '3' || c == '4' || c == '5' then
          let index := digitVal c - 1
          if index < recNames.length then
            (.selectedGift (recNames.getD index ""), .PAYMENT)
          else (.reprompt, st)
        else (.reprompt, st)
      | [] => (.reprompt, st)
    | none => (.reprompt, st)
  else if sel.wants_more_options then (.moreRecs, st)
  else if sel.updated_preferences then (.updatePrefs, .COLLECTING_PREFERENCES)
  else (.reprompt, st)

/-- Observable behaviour of the additional-categories completion call:
the response parses as a JSON array of names, or the call/parse fails. -/
inductive CategoriesBehaviour where
  | parsedArr (cats : List String)
  | failure
  deriving DecidableEq

/-- Fixed fallback list of `get_additional_categories`
(`Gift-expert/llm_service.py` lines 408-412). -/
def fallbackAdditionalCategories : List String :=
  ["Experiences", "Gourmet Food", "Pet Supplies", "Garden Tools",
   "Travel Accessories", "Health & Wellness", "Office Supplies", "Toys & Games"]

/-- `LLMService.get_additional_categories`
(`Gift-expert/llm_service.py` lines 384-412): the parsed service array on
success, the fixed fallback list on any failure; no filtering against
the existing categories happens in code (they are only mentioned in the
prompt). -/
def get_additional_categories (b : CategoriesBehaviour) : List String :=
  match b with
  | .parsedArr cats => cats
  | .failure => fallbackAdditionalCategories

/-- `ConversationFlowManager._show_additional_categories`
(`Gift-expert/conversation_flow.py` lines 387-398) acting on
`available_categories`: the returned categories are appended
(`list.extend`) with no de-duplication. -/
def showAdditionalCategories (cats : List String) (b : CategoriesBehaviour) :
    List String :=
  cats ++ get_additional_categories b

/-- Peer-response cache for one friend.  The concrete `FriendInterface`
variant used by `Gift-expert/agent.py` (the one carrying `personality`
and `preferences` maps) is not among the sources; its two slots are
modelled per the specification of the PeerResponse Cache.  `triggered`
records whether the downstream product search has been triggered in the
current query round. -/
structure PeerCache where
  personality : Option String
  preferences : Option String
  triggered : Bool
  deriving DecidableEq

/-- The empty cache: no replies stored, no search triggered. -/
def initialPeerCache : PeerCache := ⟨none, none, false⟩

/-- Personality classifier of `handle_message` (`Gift-expert/agent.py`
lines 116-123): keyword match on the lower-cased text, or length above
100. -/
def isPersonalityResponse (text : String) : Bool :=
  let low := lowerData text
  containsSeq "personality".data low || containsSeq "represents".data low ||
    containsSeq "spirit".data low || containsSeq "character".data low ||
    containsSeq "nature".data low || text.length > 100

/-- Preferences classifier of `handle_message` (`Gift-expert/agent.py`
lines 125-133): keyword match on the lower-cased text, or length below
100. -/
def isPreferencesResponse (text : String) : Bool :=
  let low := lowerData text
  containsSeq "sports".data low || containsSeq "gear".data low ||
    containsSeq "equipment".data low || containsSeq "tools".data low ||
    containsSeq "activities".data low || containsSeq "experiences".data low ||
    text.length < 100

/-- Modelled from the spec: `FriendInterface.store_personality`, absent
from the sources (only its caller `agent.py` is present).  Per the
PeerResponse Cache description it stores the reply text in the
personality slot; the product search is not triggered here (the caller
awaits a result only from the preferences path). -/
def store_personality (s : PeerCache) (text : String) : PeerCache :=
  { s with personality := some text }

/-- Modelled from the spec: `FriendInterface.store_preferences`, absent
from the sources (only its caller `agent.py` is present).  Per the
PeerResponse Cache description it stores the reply text in the
preferences slot and triggers the downstream product search only when
both slots are then non-null. -/
def store_preferences (s : PeerCache) (text : String) : PeerCache :=
  let s2 : PeerCache := { s with preferences := some text }
  if s2.personality.isSome then { s2 with triggered := true } else s2

/-- Modelled from the spec: clearing a friend entry before a new query
round (`FriendInterface.clear_friend_responses`, the cached-maps variant)
resets both slots; the round-local `triggered` flag starts afresh. -/
def clear_friend_responses (_ : PeerCache) : PeerCache := initialPeerCache

/-- Events seen by the cache of one friend: an inbound reply from that
friend address, or the start of a new query round. -/
inductive PeerEvent where
  | reply (text : String)
  | newRound
  deriving DecidableEq

/-- Inbound-message step of `handle_message` (`Gift-expert/agent.py`
lines 106-157) for one friend: a personality-classified reply is stored
when the personality slot is empty; otherwise a preferences-classified
reply is stored when the preferences slot is empty (awaiting the search
trigger); everything else is dropped. -/
def peerStep (s : PeerCache) (e : PeerEvent) : PeerCache :=
  match e with
  | .newRound => clear_friend_responses s
  | .reply t =>
    if isPersonalityResponse t && !s.personality.isSome then store_personality s t
    else if isPreferencesResponse t && !s.preferences.isSome then store_preferences s t
    else s

/-- Cache state reached from the empty cache by a sequence of events. -/
def peerRun (es : List PeerEvent) : PeerCache := es.foldl peerStep initialPeerCache

/-- The user-context map of `GlobalMemory` restricted to the `all_gifts`
field: an association list from user id to the accumulated gift list. -/
abbrev MemoryStore : Type := List (String × List GiftItem)

/-- Context lookup (`GlobalMemory.get_user_context` membership test). -/
def lookupUser (mem : MemoryStore) (uid : String) : Option (List GiftItem) :=
  (List.find? (fun p => p.1 == uid) mem).map (fun p => p.2)

/-- Replaces the gift list stored under an existing user id. -/
def setUserGifts (mem : MemoryStore) (uid : String) (gs : List GiftItem) :
    MemoryStore :=
  List.map (fun p => if p.1 == uid then (p.1, gs) else p) mem

/-- `GlobalMemory.add_gifts_to_user` (`Gift-expert/global_memory.py`
lines 69-79): an unknown user id returns with no change; otherwise the
ids already stored are collected and the incoming gifts whose id is not
among them are appended, in order. -/
def add_gifts_to_user (mem : MemoryStore) (uid : String) (gifts : List GiftItem) :
    MemoryStore :=
  match lookupUser mem uid with
  | none => mem
  | some allG =>
    let existing := allG.map (fun g => g.id)
    let newGifts := gifts.filter (fun g => !existing.contains g.id)
    setUserGifts mem uid (allG ++ newGifts)

/-- Loop-prevention phrase list of `process_user_input`
(`Gift-expert/conversation_flow.py` lines 48-54), in source order. -/
def friendResponsePhrases : List String :=
  ["i am devam", "i am parth", "i am sakshi",
   "as devam", "as parth", "as sakshi",
   "my personality", "my essence", "my core being",
   "devam is glad", "agent-devam", "calm and balanced",
   "gentle", "empathetic", "nature-guided"]

/-- Known friend names (`Gift-expert/conversation_flow.py` line 59). -/
def friendNames : List String := ["devam", "parth", "sakshi"]

/-- Where `process_user_input` sends a message before (or instead of)
the state-machine dispatch. -/
inductive RouteOutcome where
  | friendAck
  | checkReply (name : String)
  | rejection (name : String)
  | friendComm (name : String)
  | dispatchFlow
  deriving DecidableEq

/-- Routing layer of `ConversationFlowManager.process_user_input`
(`Gift-expert/conversation_flow.py` lines 43-110): a loop-prevention
phrase returns a thank-you acknowledgement; else the first friend name
contained in the lower-cased input routes to the check reply (when the
input also contains `check`), to a rejection (when no messaging context
is available), or to `communicate_with_friend`; only otherwise does the
state machine dispatch run. -/
def routeUserInput (input : String) (ctxAvail : Bool) : RouteOutcome :=
  let low := lowerData input
  if friendResponsePhrases.any (fun p => containsSeq p.data low) then .friendAck
  else
    match friendNames.find? (fun n => containsSeq n.data low) with
    | some n =>
      if containsSeq "check".data low then .checkReply n
      else if !ctxAvail then .rejection n
      else .friendComm n
    | none => .dispatchFlow

/-- The per-user conversation context touched by the state machine:
state, slot set, and the two pagination lists. -/
structure ConvContext where
  state : ConversationState
  prefs : UserPreferences
  available_categories : List String
  current_recommendations : List String
  deriving DecidableEq

/-- `ConversationFlowManager.process_user_input` at the context level:
every route except the dispatch returns before the user context is read
or written; the state-machine dispatch itself is abstracted by `flow`. -/
def process_user_input (c : ConvContext) (input : String) (ctxAvail : Bool)
    (flow : ConvContext → String → ConvContext) : RouteOutcome × ConvContext :=
  match routeUserInput input ctxAvail with
  | .dispatchFlow => (.dispatchFlow, flow c input)
  | r => (r, c)

/-- Fixed fallback list of `get_gift_categories`
(`Gift-expert/llm_service.py` lines 379-382). -/
def fallbackGiftCategories : List String :=
  ["Electronics", "Books", "Jewelry", "Home Decor",
   "Sports Equipment", "Fashion Accessories", "Kitchen Gadgets", "Art & Crafts"]

/-- `LLMService.get_gift_categories` (`Gift-expert/llm_service.py` lines
323-382): the parsed service array on success, the fixed fallback list on
any failure. -/
def get_gift_categories (b : CategoriesBehaviour) : List String :=
  match b with
  | .parsedArr cats => cats
  | .failure => fallbackGiftCategories

theorem applyUpdate_some {α : Type} (v : α) (w : Option α) :
    applyUpdate (some v) w = some v := by
  cases w <;> rfl

theorem slotVal_validate_preserve (e : ExtractedParams) (gp : GlobalParameters)
    (s : Slot) (h : slotVal gp s ≠ none) :
    slotVal (validateAndUpdateParameters e gp) s = slotVal gp s := by
  cases s
  case occasion =>
    cases hf : gp.occasion with
    | none => simp [slotVal, hf] at h
    | some v => simp [slotVal, validateAndUpdateParameters, hf, applyUpdate_some]
  case recipient =>
    cases hf : gp.recipient with
    | none => simp [slotVal, hf] at h
    | some v => simp [slotVal, validateAndUpdateParameters, hf, applyUpdate_some]
  case preferences =>
    cases hf : gp.preferences with
    | none => simp [slotVal, hf] at h
    | some v => simp [slotVal, validateAndUpdateParameters, hf, applyUpdate_some]
  case budgetMin =>
    cases hf : gp.budget_min with
    | none => simp [slotVal, hf] at h
    | some v => simp [slotVal, validateAndUpdateParameters, hf, applyUpdate_some]
  case budgetMax =>
    cases hf : gp.budget_max with
    | none => simp [slotVal, hf] at h
    | some v => simp [slotVal, validateAndUpdateParameters, hf, applyUpdate_some]

theorem slotVal_step_preserve (b : GroqExtractionBehaviour) (gp : GlobalParameters)
    (s : Slot) (h : slotVal gp s ≠ none) :
    slotVal (extractStoreStep gp b) s = slotVal gp s := by
  cases b with
  | parsedJson e => exact slotVal_validate_preserve e gp s h
  | raiseApiError => rfl
  | quoteFixedJson r => rfl
  | unparseable => rfl

theorem slotVal_fold_preserve (bs : List GroqExtractionBehaviour)
    (gp : GlobalParameters) (s : Slot) (h : slotVal gp s ≠ none) :
    slotVal (bs.foldl extractStoreStep gp) s = slotVal gp s := by
  induction bs generalizing gp with
  | nil => rfl
  | cons b rest ih =>
    have h1 : slotVal (extractStoreStep gp b) s = slotVal gp s :=
      slotVal_step_preserve b gp s h
    have h2 : slotVal (extractStoreStep gp b) s ≠ none := by rw [h1]; exact h
    simp only [List.foldl_cons]
    rw [ih (extractStoreStep gp b) h2, h1]

/-- Claim C1 (slot immutability): over any sequence of extraction calls
against the slot store, a slot that holds a non-null value keeps exactly
that value through every later call, and a slot whose value changed over
the sequence must have been null at the start — extraction writes only
to currently-null slots. -/
theorem slot_immutability_extraction (gp : GlobalParameters)
    (bs : List GroqExtractionBehaviour) (s : Slot) :
    (slotVal gp s ≠ none → slotVal (bs.foldl extractStoreStep gp) s = slotVal gp s) ∧
    (slotVal (bs.foldl extractStoreStep gp) s ≠ slotVal gp s → slotVal gp s = none) := by
  refine ⟨fun h => slotVal_fold_preserve bs gp s h, fun hne => ?_⟩
  by_cases h : slotVal gp s = none
  · exact h
  · exact absurd (slotVal_fold_preserve bs gp s h) hne

/-- Witness for C1: a store with occasion already set, hit by a call
whose service output tries to overwrite the occasion, keeps the original
value. -/
theorem slot_immutability_extraction_witness :
    slotVal
      (List.foldl extractStoreStep ⟨some "birthday", none, none, none, none⟩
        [GroqExtractionBehaviour.parsedJson ⟨some "wedding", some "sister", none, some 50, none⟩])
      Slot.occasion = some (Sum.inl "birthday") := by
  have h :=
    (slot_immutability_extraction ⟨some "birthday", none, none, none, none⟩
      [GroqExtractionBehaviour.parsedJson ⟨some "wedding", some "sister", none, some 50, none⟩]
      Slot.occasion).1 (by decide)
  exact h.trans (by decide)

/-- Claim C2 (extraction failure containment): the claim says
`get_occasion_and_preferences` never propagates an exception; on the
`Gift-expert` variant, both the API-error path and the double
parse-failure path call `self._fallback_extraction(user_input,
current_context)` where `current_context` is an undefined name, so a
`NameError` escapes to the caller instead of the keyword fallback. -/
theorem extraction_failure_nameError :
    get_occasion_and_preferences gpEmpty .raiseApiError =
      .error "NameError: name current_context is not defined" ∧
    get_occasion_and_preferences ⟨some "birthday", none, none, none, none⟩ .unparseable =
      .error "NameError: name current_context is not defined" :=
  ⟨rfl, rfl⟩

/-- Counterexample for C3: the two collecting states are not governed by
one predicate.  With all four extraction slots filled (and the `budget`
string unset, as this flow never writes it), `_handle_initial_input`
moves to `SELECTING_CATEGORY` while `_handle_preferences_collection`
stays in `COLLECTING_PREFERENCES`. -/
theorem completeness_gating_counterexample :
    handleInitialNext (gpView pAllFour).get_missing_info = .SELECTING_CATEGORY ∧
    handleCollectingNext pAllFour = .COLLECTING_PREFERENCES := by
  decide

/-- Claim C3 as amended: two distinct predicates gate the two collecting
states.  `_handle_initial_input` exits exactly when
`GlobalParameters.get_missing_info` is empty (all four slots), while
`_handle_preferences_collection` exits exactly when
`UserPreferences.is_complete` holds (occasion and the `budget` string);
on the slot set occasion = birthday, budget_min = 50, budget_max = 100,
recipient = preferences = null, both gates are false and the machine
stays in a collecting state. -/
theorem completeness_gating_amended :
    (∀ gp : GlobalParameters,
      handleInitialNext gp.get_missing_info = .SELECTING_CATEGORY ↔
        gp.get_missing_info = []) ∧
    (∀ p : UserPreferences,
      handleCollectingNext p = .SELECTING_CATEGORY ↔
        (p.occasion.isSome = true ∧ p.budget.isSome = true)) ∧
    handleInitialNext (gpView pGate).get_missing_info = .COLLECTING_PREFERENCES ∧
    handleCollectingNext pGate = .COLLECTING_PREFERENCES := by
  refine ⟨fun gp => ?_, fun p => ?_, by decide, by decide⟩
  · cases h : gp.get_missing_info with
    | nil => simp [handleInitialNext, h]
    | cons a l => simp [handleInitialNext, h]
  · cases ho : p.occasion.isSome <;> cases hb : p.budget.isSome <;>
      simp [handleCollectingNext, UserPreferences.is_complete, ho, hb]

theorem digitChar_facts (c : Char) (h : c ∈ digitChars) :
    c.toLower = c ∧ c.isDigit = true ∧ (c == '$') = false ∧ (c == ',') = false ∧
    (c == '-') = false ∧ (c == '+') = false ∧ isPySpace c = false := by
  simp only [digitChars, List.mem_cons, List.not_mem_nil, or_false] at h
  rcases h with rfl | rfl | rfl | rfl | rfl | rfl | rfl | rfl | rfl | rfl <;> decide

theorem map_toLower_of_digits (l : List Char) (h : ∀ c ∈ l, c ∈ digitChars) :
    l.map Char.toLower = l := by
  induction l with
  | nil => rfl
  | cons c t ih =>
    simp only [List.map_cons]
    rw [(digitChar_facts c (h c (List.mem_cons_self c t))).1,
      ih fun x hx => h x (List.mem_cons_of_mem c hx)]

theorem filter_all_true {p : Char → Bool} (l : List Char) (h : ∀ c ∈ l, p c = true) :
    l.filter p = l := by
  induction l with
  | nil => rfl
  | cons c t ih =>
    rw [List.filter_cons_of_pos (h c (List.mem_cons_self c t)),
      ih fun x hx => h x (List.mem_cons_of_mem c hx)]

theorem leadsWith_all_mem (sub l : List Char) (h : leadsWith sub l = true) :
    ∀ c ∈ sub, c ∈ l := by
  induction sub generalizing l with
  | nil => intro c hc; exact absurd hc (List.not_mem_nil c)
  | cons a as ih =>
    cases l with
    | nil => simp [leadsWith] at h
    | cons b bs =>
      simp only [leadsWith, Bool.and_eq_true, beq_iff_eq] at h
      intro c hc
      rcases List.mem_cons.mp hc with rfl | hc
      · rw [h.1]; exact List.mem_cons_self b bs
      · exact List.mem_cons_of_mem b (ih bs h.2 c hc)

theorem containsSeq_all_mem (sub l : List Char) (h : containsSeq sub l = true) :
    ∀ c ∈ sub, c ∈ l := by
  induction l with
  | nil =>
    intro c hc
    cases sub with
    | nil => exact absurd hc (List.not_mem_nil c)
    | cons a as => simp [containsSeq, List.isEmpty] at h
  | cons d t ih =>
    simp only [containsSeq, Bool.or_eq_true] at h
    intro c hc
    rcases h with h | h
    · exact leadsWith_all_mem sub (d :: t) h c hc
    · exact List.mem_cons_of_mem d (ih h c hc)

theorem contains_eq_false_of {α : Type} [BEq α] [LawfulBEq α] (l : List α) (x : α)
    (h : x ∉ l) : l.contains x = false := by
  cases hc : l.contains x with
  | false => rfl
  | true =>
    obtain ⟨y, hy, hxy⟩ := List.contains_iff_exists_mem_beq.mp hc
    have hxe : x = y := beq_iff_eq.mp hxy
    exact absurd (by rw [hxe]; exact hy : x ∈ l) h

theorem contains_eq_true_of {α : Type} [BEq α] [LawfulBEq α] (l : List α) (x : α)
    (h : x ∈ l) : l.contains x = true :=
  List.contains_iff_exists_mem_beq.mpr ⟨x, h, by simp⟩

theorem splitOnChar_of_not_mem (c : Char) (l : List Char)
    (h : ∀ x ∈ l, (x == c) = false) : splitOnChar c l = [l] := by
  induction l with
  | nil => rfl
  | cons x t ih =>
    have hx : (x == c) = false := h x (List.mem_cons_self x t)
    simp only [splitOnChar, hx, Bool.false_eq_true, if_false]
    rw [ih fun y hy => h y (List.mem_cons_of_mem x hy)]

theorem splitOnChar_append (c : Char) (l1 l2 : List Char)
    (h : ∀ x ∈ l1, (x == c) = false) :
    splitOnChar c (l1 ++ c :: l2) = l1 :: splitOnChar c l2 := by
  induction l1 with
  | nil => simp [splitOnChar]
  | cons x t ih =>
    have hx : (x == c) = false := h x (List.mem_cons_self x t)
    simp only [List.cons_append, splitOnChar, hx, Bool.false_eq_true, if_false,
      List.append_eq]
    rw [ih fun y hy => h y (List.mem_cons_of_mem x hy)]

theorem dropWhile_eq_self_of (p : Char → Bool) (l : List Char)
    (h : ∀ c ∈ l, p c = false) : l.dropWhile p = l := by
  cases l with
  | nil => rfl
  | cons c t => simp [List.dropWhile_cons, h c (List.mem_cons_self c t)]

theorem pyStrip_eq_self (l : List Char) (h : ∀ c ∈ l, isPySpace c = false) :
    pyStrip l = l := by
  unfold pyStrip
  rw [dropWhile_eq_self_of _ _ h,
    dropWhile_eq_self_of _ _ fun c hc => h c (List.mem_reverse.mp hc),
    List.reverse_reverse]

theorem pyInt_digits (l : List Char) (hne : l ≠ []) (h : ∀ c ∈ l, c ∈ digitChars) :
    pyInt l = some ((listToNat l : Int)) := by
  have hsp : ∀ c ∈ l, isPySpace c = false :=
    fun c hc => (digitChar_facts c (h c hc)).2.2.2.2.2.2
  have hall : l.all Char.isDigit = true :=
    List.all_eq_true.mpr fun c hc => (digitChar_facts c (h c hc)).2.1
  have hemp : l.isEmpty = false := by
    cases l with
    | nil => exact absurd rfl hne
    | cons a t => rfl
  unfold pyInt
  rw [pyStrip_eq_self l hsp]
  simp [hall, hemp]

/-- Counterexample for C4: the keyword-fallback extractor accepts the
inverted range.  On input `$100-50` the fallback budget regex extracts
budget_min = 100 and budget_max = 50 verbatim instead of rejecting. -/
theorem budget_parse_fallback_counterexample :
    fallbackBudgetFields "$100-50".data none none = (some 100, some 50) := by
  decide

/-- Claim C4 as amended: `_parse_budget_range` rejects every budget
string of the form `$A-B` with A > B (returns `None`, never swapping the
bounds), but the keyword-fallback extractor of `_fallback_extraction`
accepts such a string verbatim, writing budget_min = A and
budget_max = B without swapping or rejecting. -/
theorem budget_parse_amended :
    (∀ la lb : List Char, la ≠ [] → lb ≠ [] →
      (∀ c ∈ la, c ∈ digitChars) → (∀ c ∈ lb, c ∈ digitChars) →
      listToNat lb < listToNat la →
      parse_budget_range ('$' :: (la ++ '-' :: lb)) = none) ∧
    fallbackBudgetFields "$100-50".data none none = (some 100, some 50) := by
  refine ⟨fun la lb hla hlb ha hb hlt => ?_, by decide⟩
  have hmem : ∀ c ∈ la ++ '-' :: lb, c = '-' ∨ c ∈ digitChars := by
    intro c hc
    rcases List.mem_append.mp hc with hc | hc
    · exact Or.inr (ha c hc)
    · rcases List.mem_cons.mp hc with rfl | hc
      · exact Or.inl rfl
      · exact Or.inr (hb c hc)
  have hmap : ('$' :: (la ++ '-' :: lb)).map Char.toLower = '$' :: (la ++ '-' :: lb) := by
    simp only [List.map_cons, List.map_append,
      map_toLower_of_digits la ha, map_toLower_of_digits lb hb]
    rfl
  have hfil1 : ('$' :: (la ++ '-' :: lb)).filter (fun c => c != '$') = la ++ '-' :: lb := by
    rw [List.filter_cons_of_neg (by decide)]
    apply filter_all_true
    intro c hc
    rcases hmem c hc with rfl | hd
    · decide
    · simp [bne, (digitChar_facts c hd).2.2.1]
  have hfil2 : (la ++ '-' :: lb).filter (fun c => c != ',') = la ++ '-' :: lb := by
    apply filter_all_true
    intro c hc
    rcases hmem c hc with rfl | hd
    · decide
    · simp [bne, (digitChar_facts c hd).2.2.2.1]
  have hb2 : ((('$' :: (la ++ '-' :: lb)).map Char.toLower).filter
      (fun c => c != '$')).filter (fun c => c != ',') = la ++ '-' :: lb := by
    rw [hmap, hfil1, hfil2]
  have hunder : containsSeq "under".data (la ++ '-' :: lb) = false := by
    cases hcu : containsSeq "under".data (la ++ '-' :: lb) with
    | false => rfl
    | true =>
      have hu : 'u' ∈ la ++ '-' :: lb := containsSeq_all_mem _ _ hcu 'u' (by decide)
      rcases hmem 'u' hu with h | h
      · exact absurd h (by decide)
      · exact absurd h (by decide)
  have hbelow : containsSeq "below".data (la ++ '-' :: lb) = false := by
    cases hcu : containsSeq "below".data (la ++ '-' :: lb) with
    | false => rfl
    | true =>
      have hu : 'b' ∈ la ++ '-' :: lb := containsSeq_all_mem _ _ hcu 'b' (by decide)
      rcases hmem 'b' hu with h | h
      · exact absurd h (by decide)
      · exact absurd h (by decide)
  have hplus : (la ++ '-' :: lb).contains '+' = false := by
    apply contains_eq_false_of
    intro hmem2
    rcases hmem '+' hmem2 with h | h
    · exact absurd h (by decide)
    · exact absurd h (by decide)
  have hdash : (la ++ '-' :: lb).contains '-' = true :=
    contains_eq_true_of _ _ (List.mem_append.mpr (Or.inr (List.mem_cons_self _ _)))
  have hsplit : splitOnChar '-' (la ++ '-' :: lb) = [la, lb] := by
    rw [splitOnChar_append '-' la lb
        (fun x hx => (digitChar_facts x (ha x hx)).2.2.2.2.1),
      splitOnChar_of_not_mem '-' lb
        (fun x hx => (digitChar_facts x (hb x hx)).2.2.2.2.1)]
  have hstrip_a : pyStrip la = la :=
    pyStrip_eq_self la fun c hc => (digitChar_facts c (ha c hc)).2.2.2.2.2.2
  have hstrip_b : pyStrip lb = lb :=
    pyStrip_eq_self lb fun c hc => (digitChar_facts c (hb c hc)).2.2.2.2.2.2
  have hint_a : pyInt (pyStrip la) = some ((listToNat la : Int)) := by
    rw [hstrip_a]; exact pyInt_digits la hla ha
  have hint_b : pyInt (pyStrip lb) = some ((listToNat lb : Int)) := by
    rw [hstrip_b]; exact pyInt_digits lb hlb hb
  have hle : ¬ ((listToNat la : Int) ≤ (listToNat lb : Int)) := by
    exact_mod_cast Nat.not_le.mpr hlt
  simp only [parse_budget_range]
  rw [hb2]
  simp only [hunder, hbelow, Bool.or_self, Bool.false_eq_true, if_false, hplus, hdash,
    if_true, ite_false, ite_true]
  rw [hsplit]
  simp only [hint_a, hint_b]
  rw [if_neg hle]

/-- Witness for C4: the inverted range 100-50 behind a dollar sign is
rejected by `_parse_budget_range`. -/
theorem budget_parse_amended_witness :
    parse_budget_range ('$' :: ("100".data ++ '-' :: "50".data)) = none :=
  budget_parse_amended.1 "100".data "50".data (by decide) (by decide)
    (by decide) (by decide) (by decide)

/-- Counterexample for C5: when the completion service answers with a
parsed array of six entries, `generate_gift_recommendations` returns all
six — the length-5 cap claimed for every service behaviour fails. -/
theorem recommendation_cap_counterexample :
    (generate_gift_recommendations [⟨"g1", "Mock", "10", "d", "s"⟩]
      (.parsedList (List.replicate 6 ⟨"g1", "Mock", "10", "d", "why"⟩))).length = 6 := by
  decide

/-- Claim C5 as amended: `generate_gift_recommendations` returns the
empty list on empty input and, on completion failure, the first five
gifts in input order (hence at most five); but on a successfully parsed
completion it returns the service array verbatim, so the length-5 cap
holds only when the service returns at most five entries.  The function
itself is total (never raises). -/
theorem recommendation_cap_amended :
    (∀ b, generate_gift_recommendations [] b = []) ∧
    (∀ gifts : List GiftItem,
      (generate_gift_recommendations gifts .failure).length ≤ 5 ∧
      generate_gift_recommendations gifts .failure =
        (gifts.take 5).map RankedItem.fromInput) ∧
    (∀ (gifts : List GiftItem) (recs : List RecJson), gifts ≠ [] →
      generate_gift_recommendations gifts (.parsedList recs) =
        recs.map RankedItem.fromService) := by
  refine ⟨fun b => rfl, fun gifts => ⟨?_, ?_⟩, fun gifts recs h => ?_⟩
  · cases gifts with
    | nil => simp [generate_gift_recommendations]
    | cons g gs =>
      simp only [generate_gift_recommendations, List.isEmpty_cons, Bool.false_eq_true,
        if_false, List.length_map, List.length_take]
      omega
  · cases gifts with
    | nil => rfl
    | cons g gs => rfl
  · cases gifts with
    | nil => exact absurd rfl h
    | cons g gs => rfl

/-- Witness for C5: a singleton input with a parsed singleton service
answer returns exactly that service entry. -/
theorem recommendation_cap_amended_witness :
    generate_gift_recommendations [⟨"g1", "n", "10", "d", "s"⟩]
      (.parsedList [⟨"g1", "n", "10", "d", "why"⟩]) =
      [RankedItem.fromService ⟨"g1", "n", "10", "d", "why"⟩] := by
  have h := recommendation_cap_amended.2.2 [⟨"g1", "n", "10", "d", "s"⟩]
    [⟨"g1", "n", "10", "d", "why"⟩] (by decide)
  exact h.trans (by decide)

/-- Counterexample for C6: with five recommendations displayed, the
numeric selection 12 is out of range, yet
`_handle_recommendation_selection` reads only its first character and
selects the first gift, moving to PAYMENT instead of re-prompting. -/
theorem ordinal_selection_counterexample :
    handleRecommendationSelection ["GiftA", "GiftB", "GiftC", "GiftD", "GiftE"]
      (selectNumeric "12") .SHOWING_RECOMMENDATIONS =
      (.selectedGift "GiftA", .PAYMENT) ∧ 5 < strToNat "12" := by
  decide

/-- Claim C6 as amended: in `_handle_category_selection` a digit-only
selection N not matching a category name selects exactly the Nth element
of the currently displayed category list (1-indexed) and an out-of-range
N re-prompts with the state unchanged; in
`_handle_recommendation_selection`, however, only the FIRST character of
the selection text is read: a text whose first character is a digit 1-5
within range selects that element and moves to PAYMENT (so a multi-digit
N such as 12 selects the element named by its first digit), while a
first digit out of range, or any other first character, re-prompts with
the state unchanged. -/
theorem ordinal_selection_amended :
    (∀ (cats : List String) (rp : List String → String) (s : String),
      pyIsDigit s = true → cats.contains s = false →
      1 ≤ strToNat s → strToNat s ≤ cats.length →
      handleCategorySelection cats rp (selectNumeric s) =
        (.searched (cats.getD (strToNat s - 1) ""), .SELECTING_CATEGORY)) ∧
    (∀ (cats : List String) (rp : List String → String) (s : String),
      pyIsDigit s = true → cats.contains s = false →
      (strToNat s = 0 ∨ cats.length < strToNat s) →
      handleCategorySelection cats rp (selectNumeric s) =
        (.invalidNumberPrompt, .SELECTING_CATEGORY)) ∧
    (∀ (names : List String) (st : ConversationState) (t : String) (c : Char)
        (r : List Char), t.data = c :: r →
      (c == '1' || c == '2' || c == '3' || c == '4' || c == '5') = true →
      digitVal c ≤ names.length →
      handleRecommendationSelection names (selectNumeric t) st =
        (.selectedGift (names.getD (digitVal c - 1) ""), .PAYMENT)) ∧
    (∀ (names : List String) (st : ConversationState) (t : String) (c : Char)
        (r : List Char), t.data = c :: r →
      (c == '1' || c == '2' || c == '3' || c == '4' || c == '5') = true →
      names.length < digitVal c →
      handleRecommendationSelection names (selectNumeric t) st = (.reprompt, st)) ∧
    (∀ (names : List String) (st : ConversationState) (t : String) (c : Char)
        (r : List Char), t.data = c :: r →
      (c == '1' || c == '2' || c == '3' || c == '4' || c == '5') = false →
      handleRecommendationSelection names (selectNumeric t) st = (.reprompt, st)) := by
  have hdig : ∀ c : Char,
      (c == '1' || c == '2' || c == '3' || c == '4' || c == '5') = true →
      1 ≤ digitVal c ∧ digitVal c ≤ 5 := by
    intro c hc
    simp only [Bool.or_eq_true, beq_iff_eq] at hc
    rcases hc with (((rfl | rfl) | rfl) | rfl) | rfl <;> decide
  have hsm : ∀ s : String, pyIsDigit s = true → (s == "surprise me") = false := by
    intro s h1
    cases he : s == "surprise me" with
    | false => rfl
    | true =>
      have hse : s = "surprise me" := beq_iff_eq.mp he
      rw [hse] at h1
      exact absurd h1 (by decide)
  refine ⟨fun cats rp s h1 h2 h3 h4 => ?_, fun cats rp s h1 h2 h3 => ?_,
    fun names st t c r ht hc hlen => ?_, fun names st t c r ht hc hlen => ?_,
    fun names st t c r ht hc => ?_⟩
  · have hidx : (0 : Int) ≤ (strToNat s : Int) - 1 ∧
        (strToNat s : Int) - 1 < (cats.length : Int) := by omega
    have htn : ((strToNat s : Int) - 1).toNat = strToNat s - 1 := by omega
    simp only [handleCategorySelection, selectNumeric, hsm s h1, h2, h1,
      Option.isSome_some, Bool.and_true, beq_self_eq_true, Bool.true_and,
      Bool.false_eq_true, if_false, if_true, ite_true, ite_false]
    rw [if_pos hidx, htn]
  · have hidx : ¬ ((0 : Int) ≤ (strToNat s : Int) - 1 ∧
        (strToNat s : Int) - 1 < (cats.length : Int)) := by omega
    simp only [handleCategorySelection, selectNumeric, hsm s h1, h2, h1,
      Option.isSome_some, Bool.and_true, beq_self_eq_true, Bool.true_and,
      Bool.false_eq_true, if_false, if_true, ite_true, ite_false]
    rw [if_neg hidx]
  · have hin : digitVal c - 1 < names.length := by
      have := hdig c hc
      omega
    simp only [handleRecommendationSelection, selectNumeric, ht, hc,
      Option.isSome_some, Bool.and_true, beq_self_eq_true, Bool.true_and,
      if_true, ite_true]
    rw [if_pos hin]
  · have hin : ¬ (digitVal c - 1 < names.length) := by
      have := hdig c hc
      omega
    simp only [handleRecommendationSelection, selectNumeric, ht, hc,
      Option.isSome_some, Bool.and_true, beq_self_eq_true, Bool.true_and,
      if_true, ite_true]
    rw [if_neg hin]
  · simp only [handleRecommendationSelection, selectNumeric, ht, hc,
      Option.isSome_some, Bool.and_true, beq_self_eq_true, Bool.true_and,
      Bool.false_eq_true, if_false, if_true, ite_true, ite_false]

/-- Witness for C6: selecting 5 among eight displayed categories picks
the fifth category. -/
theorem ordinal_selection_amended_witness :
    handleCategorySelection
      ["Electronics", "Books", "Jewelry", "Home Decor", "Sports Equipment",
       "Fashion Accessories", "Kitchen Gadgets", "Art & Crafts"]
      (fun _ => "Electronics") (selectNumeric "5") =
      (.searched "Sports Equipment", .SELECTING_CATEGORY) := by
  have h := ordinal_selection_amended.1
    ["Electronics", "Books", "Jewelry", "Home Decor", "Sports Equipment",
     "Fashion Accessories", "Kitchen Gadgets", "Art & Crafts"]
    (fun _ => "Electronics") "5" (by decide) (by decide) (by decide) (by decide)
  exact h.trans (by decide)

/-- Counterexample for C7: starting from the fallback initial category
list, two `more options` requests on which the completion call fails
append the fixed fallback list twice, duplicating every one of its
names. -/
theorem category_pagination_counterexample :
    ¬ List.Nodup (showAdditionalCategories
      (showAdditionalCategories (get_gift_categories .failure) .failure) .failure) := by
  decide

theorem foldl_showAdditional_append (bs : List CategoriesBehaviour)
    (cats : List String) :
    ∃ t, bs.foldl showAdditionalCategories cats = cats ++ t := by
  induction bs generalizing cats with
  | nil => exact ⟨[], by simp⟩
  | cons b rest ih =>
    obtain ⟨t, ht⟩ := ih (showAdditionalCategories cats b)
    refine ⟨get_additional_categories b ++ t, ?_⟩
    simp only [showAdditionalCategories] at ht
    simp only [List.foldl_cons, showAdditionalCategories]
    rw [ht, List.append_assoc]

/-- Claim C7 as amended: `_show_additional_categories` only appends the
returned names (the service array, or the fixed fallback list) without
any de-duplication, so across any sequence of `more options` requests
the previously offered categories and their positions are preserved —
but repeated names can be appended, as when the fallback list is
returned twice. -/
theorem category_pagination_amended :
    ∀ (cats : List String) (bs : List CategoriesBehaviour),
      (bs.foldl showAdditionalCategories cats).take cats.length = cats := by
  intro cats bs
  obtain ⟨t, ht⟩ := foldl_showAdditional_append bs cats
  rw [ht, List.take_left]

/-- Counterexample for C8: when a preferences-classified reply (here
`sports`) arrives before the personality reply, both cache entries end
non-null yet no product search has been triggered — the claimed
equivalence fails in its if direction. -/
theorem peer_handshake_counterexample :
    (peerRun [.reply "sports", .reply "i love my personality"]).personality.isSome = true ∧
    (peerRun [.reply "sports", .reply "i love my personality"]).preferences.isSome = true ∧
    (peerRun [.reply "sports", .reply "i love my personality"]).triggered = false := by
  decide

theorem peerStep_inv (s : PeerCache) (e : PeerEvent)
    (h : s.triggered = true →
      s.personality.isSome = true ∧ s.preferences.isSome = true) :
    (peerStep s e).triggered = true →
      (peerStep s e).personality.isSome = true ∧
      (peerStep s e).preferences.isSome = true := by
  rcases s with ⟨p, q, tr⟩
  cases e with
  | newRound =>
    intro ht
    exact absurd ht (by simp [peerStep, clear_friend_responses, initialPeerCache])
  | reply t =>
    simp only [peerStep, store_personality, store_preferences]
    split_ifs with h1 h2 h3 <;> intro ht <;> simp_all

theorem peerRun_inv (es : List PeerEvent)
    (h : (peerRun es).triggered = true) :
    (peerRun es).personality.isSome = true ∧ (peerRun es).preferences.isSome = true := by
  suffices hgen : ∀ (es : List PeerEvent) (s : PeerCache),
      (s.triggered = true → s.personality.isSome = true ∧ s.preferences.isSome = true) →
      ((es.foldl peerStep s).triggered = true →
        (es.foldl peerStep s).personality.isSome = true ∧
        (es.foldl peerStep s).preferences.isSome = true) by
    exact hgen es initialPeerCache (fun ht => absurd ht (by decide)) h
  intro es2
  induction es2 with
  | nil => exact fun s h => h
  | cons e rest ih => exact fun s h => ih (peerStep s e) (peerStep_inv s e h)

/-- Claim C8 as amended (spec-modelled cache): over every event
sequence, a triggered product search implies both the personality and
the preferences cache entries are non-null — the trigger fires exactly
when a preferences-classified reply is stored while the personality
entry is already non-null, so the converse fails when the preferences
reply arrives first; and clearing the cache at a new query round means
no single following reply can trigger a search off stale data. -/
theorem peer_handshake_amended :
    (∀ es : List PeerEvent, (peerRun es).triggered = true →
      (peerRun es).personality.isSome = true ∧
      (peerRun es).preferences.isSome = true) ∧
    (∀ (s : PeerCache) (t : String),
      (peerStep (peerStep s .newRound) (.reply t)).triggered = false) := by
  refine ⟨fun es h => peerRun_inv es h, fun s t => ?_⟩
  simp only [peerStep, clear_friend_responses, initialPeerCache, store_personality,
    store_preferences]
  split_ifs <;> simp_all

/-- Witness for C8: a personality reply followed by a preferences reply
triggers the search, and then indeed both entries are non-null. -/
theorem peer_handshake_amended_witness :
    (peerRun [.reply "i love my personality", .reply "sports gear"]).personality.isSome = true ∧
    (peerRun [.reply "i love my personality", .reply "sports gear"]).preferences.isSome = true :=
  peer_handshake_amended.1 [.reply "i love my personality", .reply "sports gear"]
    (by decide)

/-- Counterexample for C9: a batch whose two gifts share the id `a`
against a user with an empty collection — both are appended, so the
resulting `all_gifts` carries a duplicated id. -/
theorem gift_accumulation_counterexample :
    add_gifts_to_user [("u", [])] "u"
      [⟨"a", "Mug", "10", "d", "s"⟩, ⟨"a", "Cup", "12", "d", "s"⟩] =
      [("u", [⟨"a", "Mug", "10", "d", "s"⟩, ⟨"a", "Cup", "12", "d", "s"⟩])] ∧
    ¬ List.Nodup (List.map (fun g => g.id)
      [(⟨"a", "Mug", "10", "d", "s"⟩ : GiftItem), ⟨"a", "Cup", "12", "d", "s"⟩]) := by
  decide

theorem lookupUser_setUserGifts (mem : MemoryStore) (uid : String)
    (gs : List GiftItem) (h : (lookupUser mem uid).isSome = true) :
    lookupUser (setUserGifts mem uid gs) uid = some gs := by
  induction mem with
  | nil => simp [lookupUser] at h
  | cons kv rest ih =>
    rcases kv with ⟨k, v⟩
    simp only [setUserGifts, List.map_cons]
    by_cases hk : (k == uid) = true
    · rw [if_pos hk]
      unfold lookupUser
      rw [List.find?_cons_of_pos _ (by simpa using hk)]
      rfl
    · have hk2 : (k == uid) = false := by
        cases hkk : k == uid with
        | false => rfl
        | true => exact absurd hkk hk
      rw [if_neg hk]
      unfold lookupUser
      rw [List.find?_cons_of_neg _ (by simp [hk2])]
      have h2 : (lookupUser rest uid).isSome = true := by
        unfold lookupUser at h
        rw [List.find?_cons_of_neg _ (by simp [hk2])] at h
        exact h
      exact ih h2

/-- Claim C9 as amended: `add_gifts_to_user` is a no-op for an unknown
user id; for a known user the stored gifts are preserved as a prefix in
their original order and only gifts whose id is absent from the stored
collection are appended; the resulting id list is duplicate-free
whenever the stored ids and the incoming batch ids are each
duplicate-free — a batch that repeats an id internally defeats the
de-duplication, as the counterexample shows. -/
theorem gift_accumulation_amended :
    (∀ (mem : MemoryStore) (uid : String) (gifts : List GiftItem),
      lookupUser mem uid = none → add_gifts_to_user mem uid gifts = mem) ∧
    (∀ (mem : MemoryStore) (uid : String) (gifts allG : List GiftItem),
      lookupUser mem uid = some allG →
      lookupUser (add_gifts_to_user mem uid gifts) uid =
        some (allG ++ gifts.filter
          (fun g => !(allG.map (fun x => x.id)).contains g.id)) ∧
      ∀ g ∈ gifts.filter (fun g => !(allG.map (fun x => x.id)).contains g.id),
        g.id ∉ allG.map (fun x => x.id)) ∧
    (∀ allG gifts : List GiftItem,
      (allG.map (fun g => g.id)).Nodup → (gifts.map (fun g => g.id)).Nodup →
      ((allG ++ gifts.filter
        (fun g => !(allG.map (fun x => x.id)).contains g.id)).map
          (fun g => g.id)).Nodup) := by
  refine ⟨fun mem uid gifts h => ?_, fun mem uid gifts allG h => ⟨?_, ?_⟩,
    fun allG gifts h1 h2 => ?_⟩
  · simp [add_gifts_to_user, h]
  · simp only [add_gifts_to_user, h]
    exact lookupUser_setUserGifts mem uid _ (by rw [h]; rfl)
  · intro g hg hmem
    have hpred := (List.mem_filter.mp hg).2
    rw [contains_eq_true_of _ _ hmem] at hpred
    simp at hpred
  · rw [List.map_append, List.nodup_append]
    refine ⟨h1, ?_, ?_⟩
    · exact List.Nodup.sublist (List.Sublist.map _ (List.filter_sublist gifts)) h2
    · intro x hx hx2
      obtain ⟨g, hgmem, rfl⟩ := List.mem_map.mp hx2
      have hpred := (List.mem_filter.mp hgmem).2
      rw [contains_eq_true_of _ _ hx] at hpred
      simp at hpred

/-- Witness for C9: adding a batch with one already-stored id and one
new id appends only the new gift after the preserved collection. -/
theorem gift_accumulation_amended_witness :
    lookupUser (add_gifts_to_user [("u", [⟨"a", "Mug", "10", "d", "s"⟩])] "u"
      [⟨"a", "Cup", "12", "d", "s"⟩, ⟨"b", "Pen", "5", "d", "s"⟩]) "u" =
      some [⟨"a", "Mug", "10", "d", "s"⟩, ⟨"b", "Pen", "5", "d", "s"⟩] := by
  have h := (gift_accumulation_amended.2.1 [("u", [⟨"a", "Mug", "10", "d", "s"⟩])] "u"
    [⟨"a", "Cup", "12", "d", "s"⟩, ⟨"b", "Pen", "5", "d", "s"⟩]
    [⟨"a", "Mug", "10", "d", "s"⟩] (by decide)).1
  exact h.trans (by decide)

/-- Counterexample for C10: the input `devam is glad` contains the
friend name `devam`, but `process_user_input` answers it through the
friend-agent-response acknowledgement branch — not the friend interface
nor its check or rejection replies — while still leaving the context
untouched. -/
theorem friend_bypass_counterexample :
    routeUserInput "devam is glad" true = .friendAck ∧
    containsSeq "devam".data (lowerData "devam is glad") = true ∧
    process_user_input ⟨.INITIAL, pGate, [], []⟩ "devam is glad" true
      (fun c _ => ⟨.COMPLETED, c.prefs, [], []⟩) =
      (.friendAck, ⟨.INITIAL, pGate, [], []⟩) := by
  decide

/-- Claim C10 as amended: any input whose lower-cased text contains one
of the friend names is answered before the state-machine dispatch runs —
by the friend interface, its check or rejection replies, or the
friend-agent-response acknowledgement — and the user's conversation
context (state, slots, pagination) is left unchanged. -/
theorem friend_bypass_amended :
    ∀ (c : ConvContext) (input : String) (ctxAvail : Bool)
      (flow : ConvContext → String → ConvContext),
      friendNames.any (fun n => containsSeq n.data (lowerData input)) = true →
      (process_user_input c input ctxAvail flow).1 ≠ .dispatchFlow ∧
      (process_user_input c input ctxAvail flow).2 = c := by
  intro c input ctxAvail flow hany
  have hroute : routeUserInput input ctxAvail ≠ .dispatchFlow := by
    unfold routeUserInput
    by_cases hp : friendResponsePhrases.any
        (fun p => containsSeq p.data (lowerData input)) = true
    · simp [hp]
    · have hfind : (friendNames.find?
          (fun n => containsSeq n.data (lowerData input))).isSome = true := by
        rw [List.find?_isSome]
        exact List.any_eq_true.mp hany
      obtain ⟨n, hn⟩ := Option.isSome_iff_exists.mp hfind
      simp only [Bool.not_eq_true] at hp
      simp only [hp, Bool.false_eq_true, if_false, hn]
      split_ifs <;> simp
  unfold process_user_input
  cases hr : routeUserInput input ctxAvail with
  | dispatchFlow => exact absurd hr hroute
  | friendAck => exact ⟨by simp, rfl⟩
  | checkReply n => exact ⟨by simp, rfl⟩
  | rejection n => exact ⟨by simp, rfl⟩
  | friendComm n => exact ⟨by simp, rfl⟩

/-- Witness for C10: a gift request naming parth leaves the context
unchanged even though the dispatch function would have altered it. -/
theorem friend_bypass_amended_witness :
    (process_user_input ⟨.INITIAL, pGate, [], []⟩ "gift for parth" true
      (fun c _ => ⟨.COMPLETED, c.prefs, [], []⟩)).2 = ⟨.INITIAL, pGate, [], []⟩ :=
  (friend_bypass_amended ⟨.INITIAL, pGate, [], []⟩ "gift for parth" true
    (fun c _ => ⟨.COMPLETED, c.prefs, [], []⟩) (by decide)).2

/-- Witness for C3: on the fully-filled four-slot set the INITIAL gate
fires because its missing-info list is empty. -/
theorem completeness_gating_amended_witness :
    handleInitialNext (gpView pAllFour).get_missing_info = .SELECTING_CATEGORY :=
  (completeness_gating_amended.1 (gpView pAllFour)).mpr (by decide)

/-- Witness for C7: two failed additional-category rounds on top of the
fallback initial list keep the initial eight names as the prefix. -/
theorem category_pagination_amended_witness :
    (List.foldl showAdditionalCategories (get_gift_categories .failure)
      [.failure, .failure]).take (get_gift_categories .failure).length =
      get_gift_categories .failure :=
  category_pagination_amended (get_gift_categories .failure) [.failure, .failure]
